import Mathlib

/-!
Verification of the two-tier conversational memory store
(common/short_term_memory.py, common/long_term_memory.py,
common/memory_manager.py).

Numeric model: Python floats are modelled as rationals.  The two
transcendental operations the code performs on floats, namely
the half-life power x maps to 0.5 ** x and the cosine similarity
np.dot/(norm*norm), are taken as parameters (powHalf, simFn) of the
definitions that use them; every theorem below quantifies over them,
so each statement holds in particular for the actual float functions.
-/

/-- A stored turn of conversation: the dict built by message_to_dict in
short_term_memory.py (fields actual_user_nickname, content, create_time,
formated_time; the source spells formated_time with one t). -/
structure Turn where
  actual_user_nickname : String
  content : String
  create_time : ℚ
  formated_time : String
deriving DecidableEq, Repr

/-- short_term_memory.py, module level dict_to_str: renders a turn as
nickname(formated_time): content. -/
def dict_to_str (m : Turn) : String :=
  m.actual_user_nickname ++ "(" ++ m.formated_time ++ "): " ++ m.content

/-- The state of a ShortTermMemory: a bounded deque of turns
(collections.deque with maxlen = max_size). -/
structure ShortTermMemory where
  max_size : ℕ
  messages : List Turn
deriving DecidableEq, Repr

/-- Python truthiness of the idiom n = n or len(messages): an omitted
argument (none) or an argument equal to 0 both fall through to the
current length. -/
def effN (n : Option ℕ) (len : ℕ) : ℕ :=
  match n with
  | none => len
  | some m => if m = 0 then len else m

/-- Python slice l[-n:] for a natural n: the last n elements, except that
l[-0:] is the whole list. -/
def pyLastSlice (l : List α) (n : ℕ) : List α :=
  if n = 0 then l else l.drop (l.length - n)

/-- ShortTermMemory.add: deque append with maxlen, dropping the oldest
turn when the buffer is full. -/
def ShortTermMemory.add (stm : ShortTermMemory) (m : Turn) : ShortTermMemory :=
  let l := stm.messages ++ [m]
  ⟨stm.max_size, l.drop (l.length - stm.max_size)⟩

/-- ShortTermMemory.get_recent: n = n or len(messages), then
list(messages)[-n:] rendered. -/
def ShortTermMemory.get_recent (stm : ShortTermMemory) (n : Option ℕ) : List String :=
  (pyLastSlice stm.messages (effN n stm.messages.length)).map dict_to_str

/-- ShortTermMemory.get_back: n = n or len(messages), then
list(messages)[:n] rendered. -/
def ShortTermMemory.get_back (stm : ShortTermMemory) (n : Option ℕ) : List String :=
  (stm.messages.take (effN n stm.messages.length)).map dict_to_str

/-- ShortTermMemory.delete_back: returns the rendered first n messages and
the buffer rebuilt from the remaining ones (deque of list(messages)[n:]). -/
def ShortTermMemory.delete_back (stm : ShortTermMemory) (n : Option ℕ) :
    List String × ShortTermMemory :=
  let k := effN n stm.messages.length
  ((stm.messages.take k).map dict_to_str, ⟨stm.max_size, stm.messages.drop k⟩)

example :
    (ShortTermMemory.add ⟨2, [⟨"a", "x", 0, "t"⟩, ⟨"b", "y", 0, "t"⟩]⟩ ⟨"c", "z", 0, "t"⟩).messages
      = [⟨"b", "y", 0, "t"⟩, ⟨"c", "z", 0, "t"⟩] := by decide

/-- A row of the memories table in long_term_memory.py: id, content,
vector, timestamp, importance, last_accessed, access_count.  The query
code reads the timestamp column under the name created_time. -/
structure MemoryEntry where
  id : ℕ
  content : String
  vector : List ℚ
  timestamp : ℚ
  importance : ℚ
  last_accessed : ℚ
  access_count : ℕ
deriving DecidableEq, Repr

/-- The state of a LongTermMemory: whether a SentenceTransformer model is
configured (self.model is not None), the next AUTOINCREMENT row id, and
the rows in insertion order (ids strictly increasing along the list). -/
structure LongTermMemory where
  hasModel : Bool
  nextId : ℕ
  entries : List MemoryEntry
deriving DecidableEq, Repr

/-- Python test not content.strip(): true exactly when the string is empty
or consists of whitespace only. -/
def isBlank (s : String) : Bool :=
  s.data.all Char.isWhitespace

/-- LongTermMemory.add: rejects blank content with the sentinel -1, then
rejects a missing model with the same sentinel -1; otherwise inserts one
row with access_count defaulting to 0 and timestamp = last_accessed = now,
returning the fresh row id.  The embedding model.encode is the external
parameter embed. -/
def LongTermMemory.add (embed : String → List ℚ) (now : ℚ)
    (ltm : LongTermMemory) (content : String) (importance : ℚ) :
    Int × LongTermMemory :=
  if isBlank content then (-1, ltm)
  else if ltm.hasModel = false then (-1, ltm)
  else
    ((ltm.nextId : Int),
      { ltm with
        nextId := ltm.nextId + 1,
        entries := ltm.entries ++
          [⟨ltm.nextId, content, embed content, now, importance, now, 0⟩] })

/-- The per-entry composite score computed inside LongTermMemory.query
(lines 137 to 147 of long_term_memory.py): similarity times
(0.6 + 0.2*importance + 0.1*time_factor + 0.1*(recency_factor +
frequency_factor)), with time_factor = powHalf((now - created)/(7*24*3600)),
recency_factor = powHalf((now - last_accessed)/(24*3600)) and
frequency_factor = min(1, access_count/10).  simFn stands for the cosine
similarity np.dot/(norm*norm) and powHalf for x maps to 0.5 ** x. -/
def scoreOf (simFn : List ℚ → List ℚ → ℚ) (powHalf : ℚ → ℚ)
    (now : ℚ) (qv : List ℚ) (e : MemoryEntry) : ℚ :=
  let similarity := simFn qv e.vector
  let time_factor := powHalf ((now - e.timestamp) / (7 * 24 * 3600))
  let recency_factor := powHalf ((now - e.last_accessed) / (24 * 3600))
  let frequency_factor := min 1 ((e.access_count : ℚ) / 10)
  similarity * (0.6 + 0.2 * e.importance + 0.1 * time_factor
    + 0.1 * (recency_factor + frequency_factor))

/-- Insertion step of a stable descending sort on the score component:
the new element is placed after every already-sorted element whose score
is at least as large, so earlier-inserted elements win ties. -/
def insertDesc (x : MemoryEntry × ℚ) : List (MemoryEntry × ℚ) → List (MemoryEntry × ℚ)
  | [] => [x]
  | y :: ys => if y.2 < x.2 then x :: y :: ys else y :: insertDesc x ys

/-- Stable descending sort by score: the Lean counterpart of the Python
call memories.sort(key = score, reverse = True), whose timsort is stable
so that equal scores keep their fetch order. -/
def sortDesc (l : List (MemoryEntry × ℚ)) : List (MemoryEntry × ℚ) :=
  l.foldl (fun acc x => insertDesc x acc) []

/-- The ordering the spec claims for query results: strictly higher score
first, ties broken by lower id (insertion order) first. -/
def scoredLex (a b : MemoryEntry × ℚ) : Prop :=
  b.2 < a.2 ∨ (a.2 = b.2 ∧ a.1.id < b.1.id)

/-- LongTermMemory.dict_to_str: renders one returned memory as
(time: created_time):content — note there is no space after the colon in
the source f-string. -/
def LongTermMemory.entry_to_str (e : MemoryEntry) : String :=
  "(time: " ++ toString e.timestamp ++ "):" ++ e.content

/-- LongTermMemory.query: empty result when no model or no rows; otherwise
score every row, stable-sort descending, take top_k, bump last_accessed
and access_count of exactly the returned rows, and render the top rows. -/
def LongTermMemory.query (simFn : List ℚ → List ℚ → ℚ) (powHalf : ℚ → ℚ)
    (ltm : LongTermMemory) (qv : List ℚ) (top_k : ℕ) (now : ℚ) :
    List String × LongTermMemory :=
  if ltm.hasModel = false then ([], ltm)
  else if ltm.entries.isEmpty then ([], ltm)
  else
    let scored := ltm.entries.map (fun e => (e, scoreOf simFn powHalf now qv e))
    let top := (sortDesc scored).take top_k
    let topIds := top.map (fun p => p.1.id)
    let updated := ltm.entries.map (fun e =>
      if topIds.contains e.id then
        { e with last_accessed := now, access_count := e.access_count + 1 }
      else e)
    (top.map (fun p => LongTermMemory.entry_to_str p.1), { ltm with entries := updated })

/-- LongTermMemory.clean_outdated: deletes every row with
timestamp < now - threshold_days*24*3600 and importance < min_importance
(a conjunction), returning the number of rows deleted together with the
surviving store. -/
def LongTermMemory.clean_outdated (ltm : LongTermMemory) (now : ℚ)
    (threshold_days : ℚ) (min_importance : ℚ) : ℕ × LongTermMemory :=
  let cond : MemoryEntry → Bool := fun e =>
    decide (e.timestamp < now - threshold_days * 24 * 3600) &&
    decide (e.importance < min_importance)
  ((ltm.entries.filter cond).length,
    { ltm with entries := ltm.entries.filter (fun e => !cond e) })

example :
    (LongTermMemory.add (fun _ => [1]) 5 ⟨true, 1, []⟩ "hello" 1) =
      (1, ⟨true, 2, [⟨1, "hello", [1], 5, 1, 5, 0⟩]⟩) := by decide

example :
    (LongTermMemory.query (fun _ _ => 1) (fun _ => 1) ⟨true, 2, [⟨1, "x", [], 0, 1, 0, 0⟩]⟩
      [] 1 0).1 = ["(time: 0):x"] := by decide

/-- The value produced by json.loads when it succeeds: a JSON tree. -/
inductive JValue
| jnull
| jbool (b : Bool)
| jnum (n : Int)
| jstr (s : String)
| jarr (xs : List JValue)
| jobj (fields : List (String × JValue))

/-- The uncaught Python exceptions the consolidation commit can raise. -/
inductive PyError
| attributeError
| typeError
deriving DecidableEq, Repr

/-- Python summary.get(key, default): defined only on dicts; any other
value has no attribute get and raises AttributeError. -/
def dictGet (v : JValue) (key : String) (default : JValue) :
    Except PyError JValue :=
  match v with
  | .jobj fields =>
    .ok ((fields.lookup key).getD default)
  | _ => .error .attributeError

/-- Python iteration over the parsed summary value (for content in
summary): a list yields its elements, a string yields its characters as
one-character strings, a dict yields its keys; null, booleans and numbers
are not iterable and raise TypeError. -/
def pyIterate : JValue → Except PyError (List JValue)
  | .jarr xs => .ok xs
  | .jstr s => .ok (s.data.map (fun c => .jstr (String.singleton c)))
  | .jobj fields => .ok (fields.map (fun p => .jstr p.1))
  | _ => .error .typeError

/-- The insertion loop of the consolidation commit: each statement is
passed to LongTermMemory.add with importance 1.2, whose -1 failure
sentinel is ignored; a non-string statement raises AttributeError inside
add at content.strip(), stopping the loop with the earlier insertions
already committed. -/
def addLoop (embed : String → List ℚ) (now : ℚ) :
    LongTermMemory → List JValue → LongTermMemory × Option PyError
  | ltm, [] => (ltm, none)
  | ltm, v :: vs =>
    match v with
    | .jstr s => addLoop embed now (LongTermMemory.add embed now ltm s (1.2 : ℚ)).2 vs
    | _ => (ltm, some .attributeError)

/-- MemoryManager summarize_short_term_memory, from the get_back guard
onward.  The external pieces are: embed (the embedding model) and parsed
(the outcome of json.loads on the summarization response; Except.error
stands for json.JSONDecodeError, which the source catches).  The result
is (uncaught exception if any, final short-term state, final long-term
state): the source has no try/except around the commit, so any PyError
propagates to the caller while the stores keep whatever mutations already
happened. -/
def summarize_short_term_memory (embed : String → List ℚ) (now : ℚ)
    (stm : ShortTermMemory) (ltm : LongTermMemory)
    (parsed : Except Unit JValue) (len : ℕ) :
    Option PyError × ShortTermMemory × LongTermMemory :=
  let recent := stm.get_back (some len)
  if recent.length < len then (none, stm, ltm)
  else
    match parsed with
    | .error _ => (none, stm, ltm)
    | .ok v =>
      match dictGet v "summarize" v with
      | .error e => (some e, stm, ltm)
      | .ok v2 =>
        match pyIterate v2 with
        | .error e => (some e, stm, ltm)
        | .ok items =>
          match addLoop embed now ltm items with
          | (ltm2, some e) => (some e, stm, ltm2)
          | (ltm2, none) => (none, (stm.delete_back (some len)).2, ltm2)

/-- MemoryManager.get_memories: the header line, every rendered recent
turn except the last one (Python slice [:-1]), then the current-turn
marker.  The query argument of the source is unused because the
long-term-memory block is commented out. -/
def get_memories (stm : ShortTermMemory) (recent_top_k : ℕ) : String :=
  "[聊天历史(你的回复记录为bot)]\n"
    ++ (stm.get_recent (some recent_top_k)).dropLast.foldl
        (fun acc m => acc ++ m ++ "\n") ""
    ++ "[当前对话]\n"

/-- The session registry of MemoryManager as seen by one session id:
which instance id (a construction counter value) the dict currently maps
the session to, and how many instances have been constructed so far. -/
structure Registry where
  stored : Option ℕ
  constructed : ℕ
deriving DecidableEq, Repr

/-- One thread running get_short_term_memory, split at its interleaving
point: pc 0 performs the membership test (if session_id not in dict), pc 1
constructs and stores a fresh instance when the test found nothing.  The
source takes no lock around this check-then-act sequence. -/
structure ThreadSt where
  pc : ℕ
  found : Bool
deriving DecidableEq, Repr

/-- One atomic step of a thread inside get_short_term_memory. -/
def threadStep (t : ThreadSt) (g : Registry) : ThreadSt × Registry :=
  if t.pc = 0 then (⟨1, g.stored.isSome⟩, g)
  else if t.pc = 1 then
    if t.found then (⟨2, t.found⟩, g)
    else (⟨2, t.found⟩, ⟨some g.constructed, g.constructed + 1⟩)
  else (t, g)

/-- Run a schedule over two threads, true picking thread one and false
picking thread two. -/
def runSched : List Bool → ThreadSt × ThreadSt × Registry → ThreadSt × ThreadSt × Registry
  | [], s => s
  | b :: rest, (t1, t2, g) =>
    if b then
      let p := threadStep t1 g
      runSched rest (p.1, t2, p.2)
    else
      let p := threadStep t2 g
      runSched rest (t1, p.1, p.2)

/-- Initial state: empty registry, both threads about to run their
membership test for the same session id. -/
def raceInit : ThreadSt × ThreadSt × Registry :=
  (⟨0, false⟩, ⟨0, false⟩, ⟨none, 0⟩)

/-- A complete schedule gives each of the two threads exactly its two
steps. -/
def completeSched (s : List Bool) : Prop :=
  s.count true = 2 ∧ s.count false = 2

instance (s : List Bool) : Decidable (completeSched s) :=
  inferInstanceAs (Decidable (s.count true = 2 ∧ s.count false = 2))

example :
    (runSched [true, false, true, false] raceInit).2.2.constructed = 2 := by decide

example :
    (summarize_short_term_memory (fun _ => []) 0
      ⟨50, [⟨"a", "x", 0, "t"⟩]⟩ ⟨false, 1, []⟩ (.ok (.jarr [.jstr "s"])) 1) =
      (some .attributeError, ⟨50, [⟨"a", "x", 0, "t"⟩]⟩, ⟨false, 1, []⟩) := by decide

/-! ## Helper lemmas -/

theorem filter_partition_length (p : α → Bool) (l : List α) :
    (l.filter p).length + (l.filter (fun a => !p a)).length = l.length := by
  induction l with
  | nil => rfl
  | cons x t ih => by_cases h : p x <;> simp [List.filter_cons, h] <;> omega

theorem add_noModel (embed : String → List ℚ) (now : ℚ) (ltm : LongTermMemory)
    (s : String) (imp : ℚ) (h : ltm.hasModel = false) :
    LongTermMemory.add embed now ltm s imp = (-1, ltm) := by
  unfold LongTermMemory.add
  rw [h]
  simp

theorem addLoop_noModel (embed : String → List ℚ) (now : ℚ) :
    ∀ (items : List JValue) (ltm : LongTermMemory),
      ltm.hasModel = false → (∀ v ∈ items, ∃ s, v = JValue.jstr s) →
      addLoop embed now ltm items = (ltm, none) := by
  intro items
  induction items with
  | nil => intro ltm _ _; rfl
  | cons v vs ih =>
    intro ltm hm hall
    obtain ⟨s, rfl⟩ := hall v (List.mem_cons_self v vs)
    show addLoop embed now (LongTermMemory.add embed now ltm s (1.2 : ℚ)).2 vs = (ltm, none)
    rw [add_noModel embed now ltm s _ hm]
    exact ih ltm hm (fun w hw => hall w (List.mem_cons_of_mem _ hw))

/-! ## Claims -/

/-- C1: for every entry examined by query, the composite score equals
similarity times (0.6 + 0.2*importance + 0.1*timeDecay +
0.1*(recencyDecay + frequencyGain)) with timeDecay = powHalf(ageDays/7),
ageDays = (now - createdAt)/86400, recencyDecay = powHalf(idleDays/1),
idleDays = (now - lastAccessedAt)/86400, frequencyGain =
min(1, accessCount/10); powHalf stands for x maps to 0.5 ** x and the
statement holds for every such function. -/
theorem query_score_formula (simFn : List ℚ → List ℚ → ℚ) (powHalf : ℚ → ℚ)
    (now : ℚ) (qv : List ℚ) (e : MemoryEntry) :
    scoreOf simFn powHalf now qv e =
      simFn qv e.vector *
        (0.6 + 0.2 * e.importance
          + 0.1 * powHalf (((now - e.timestamp) / 86400) / 7)
          + 0.1 * (powHalf (((now - e.last_accessed) / 86400) / 1)
            + min 1 ((e.access_count : ℚ) / 10))) := by
  simp only [scoreOf, div_div, div_one]
  norm_num

/-- C7: clean_outdated removes exactly the entries whose age in days
exceeds threshold_days and whose importance is below min_importance (the
conjunction), retains every entry failing either condition, and returns
the number of entries actually removed. -/
theorem clean_outdated_spec (ltm : LongTermMemory) (now threshold_days min_importance : ℚ) :
    (ltm.clean_outdated now threshold_days min_importance).2.entries
        = ltm.entries.filter (fun e =>
            !(decide (threshold_days < (now - e.timestamp) / 86400)
              && decide (e.importance < min_importance)))
      ∧ (ltm.clean_outdated now threshold_days min_importance).1
          = (ltm.entries.filter (fun e =>
              decide (threshold_days < (now - e.timestamp) / 86400)
                && decide (e.importance < min_importance))).length
      ∧ (ltm.clean_outdated now threshold_days min_importance).1
          + (ltm.clean_outdated now threshold_days min_importance).2.entries.length
          = ltm.entries.length := by
  have hcond : ∀ e : MemoryEntry,
      (decide (e.timestamp < now - threshold_days * 24 * 3600)
        && decide (e.importance < min_importance))
      = (decide (threshold_days < (now - e.timestamp) / 86400)
        && decide (e.importance < min_importance)) := by
    intro e
    have h1 : (e.timestamp < now - threshold_days * 24 * 3600)
        ↔ (threshold_days < (now - e.timestamp) / 86400) := by
      rw [lt_div_iff₀ (by norm_num : (0:ℚ) < 86400)]
      constructor <;> intro h <;> nlinarith
    simp only [h1]
  constructor
  · simp only [LongTermMemory.clean_outdated]
    exact List.filter_congr (fun e _ => by rw [hcond e])
  constructor
  · simp only [LongTermMemory.clean_outdated]
    rw [List.filter_congr (fun e _ => by rw [hcond e])]
  · simp only [LongTermMemory.clean_outdated]
    exact filter_partition_length _ _

/-- C3 counterexample: the summarization response 42 is valid JSON that
cannot be parsed into the expected structure (a structured list of
distilled statements), yet consolidation does not abort cleanly: the
subsequent summary.get call raises an uncaught AttributeError, so the
claim that consolidation does not raise on every unparseable response is
false. -/
theorem summarize_raises_on_nonDict :
    summarize_short_term_memory (fun _ => []) 0
        ⟨50, [⟨"a", "x", 0, "t"⟩]⟩ ⟨true, 1, []⟩ (.ok (.jnum 42)) 1
      = (some .attributeError, ⟨50, [⟨"a", "x", 0, "t"⟩]⟩, ⟨true, 1, []⟩) := by
  decide

/-- C3 amended: whenever json.loads itself fails (json.JSONDecodeError,
the only exception the source catches), consolidation aborts without
raising, without touching the recent buffer and without adding any
long-term entry; responses that decode to JSON of an unexpected shape are
not covered by this guarantee. -/
theorem summarize_aborts_on_decode_error (embed : String → List ℚ) (now : ℚ)
    (stm : ShortTermMemory) (ltm : LongTermMemory) (err : Unit) (len : ℕ) :
    summarize_short_term_memory embed now stm ltm (.error err) len
      = (none, stm, ltm) := by
  unfold summarize_short_term_memory
  by_cases h : (stm.get_back (some len)).length < len <;> simp [h]

/-- C4 counterexample: the two failure modes of add are not distinct
error kinds: a missing embedding model on non-blank content and blank
content with a model present both return the same bare sentinel -1 with
the store unchanged, so a caller cannot tell them apart. -/
theorem add_failure_kinds_identical :
    LongTermMemory.add (fun _ => []) 0 ⟨false, 1, []⟩ "hi" 1
        = (-1, ⟨false, 1, []⟩)
      ∧ LongTermMemory.add (fun _ => []) 0 ⟨true, 1, []⟩ "" 1
        = (-1, ⟨true, 1, []⟩)
      ∧ (LongTermMemory.add (fun _ => []) 0 ⟨false, 1, []⟩ "hi" 1).1
        = (LongTermMemory.add (fun _ => []) 0 ⟨true, 1, []⟩ "" 1).1 := by
  decide

/-- C4 amended: add fails with the single sentinel value -1 both when no
embedding model is configured and when content is empty or whitespace
only (the two failures are not distinguishable); in both failure cases
the store is unchanged; on success it appends exactly one new entry with
access_count 0 and timestamp = last_accessed = now and returns the id of
that entry. -/
theorem add_spec (embed : String → List ℚ) (now : ℚ) (ltm : LongTermMemory)
    (content : String) (importance : ℚ) :
    (isBlank content = true →
        LongTermMemory.add embed now ltm content importance = (-1, ltm))
      ∧ (ltm.hasModel = false →
        LongTermMemory.add embed now ltm content importance = (-1, ltm))
      ∧ (isBlank content = false → ltm.hasModel = true →
        LongTermMemory.add embed now ltm content importance
          = ((ltm.nextId : Int),
              ⟨true, ltm.nextId + 1,
                ltm.entries ++
                  [⟨ltm.nextId, content, embed content, now, importance, now, 0⟩]⟩)) := by
  refine ⟨fun hb => ?_, fun hm => add_noModel embed now ltm content importance hm,
    fun hb hm => ?_⟩
  · unfold LongTermMemory.add
    rw [hb]
    simp
  · unfold LongTermMemory.add
    rw [hb, hm]
    simp

/-- C4 witness: add_spec evaluated at whitespace-only content, at a
store without a model, and at a successful insertion. -/
theorem add_spec_witness :
    LongTermMemory.add (fun _ => [1]) 7 ⟨true, 1, []⟩ " " 1 = (-1, ⟨true, 1, []⟩)
      ∧ LongTermMemory.add (fun _ => [1]) 7 ⟨false, 1, []⟩ "hi" 1 = (-1, ⟨false, 1, []⟩)
      ∧ LongTermMemory.add (fun _ => [1]) 7 ⟨true, 1, []⟩ "hi" 1
        = (1, ⟨true, 2, [⟨1, "hi", [1], 7, 1, 7, 0⟩]⟩) :=
  ⟨(add_spec (fun _ => [1]) 7 ⟨true, 1, []⟩ " " 1).1 (by decide),
    (add_spec (fun _ => [1]) 7 ⟨false, 1, []⟩ "hi" 1).2.1 rfl,
    (add_spec (fun _ => [1]) 7 ⟨true, 1, []⟩ "hi" 1).2.2 (by decide) rfl⟩

/-- C2 counterexample: consolidation with no embedding model configured,
a one-turn buffer and the well-formed summary object with one statement:
every insertion fails (the long-term store is returned unchanged and add
returned the -1 sentinel), yet the oldest turn is still removed from the
buffer, so the insertion-failure-keeps-turns atomic-commit claim is
false. -/
theorem summarize_commit_not_atomic :
    summarize_short_term_memory (fun _ => []) 0
        ⟨50, [⟨"a", "x", 0, "t"⟩]⟩ ⟨false, 1, []⟩
        (.ok (.jobj [("summarize", .jarr [.jstr "s"])])) 1
      = (none, ⟨50, []⟩, ⟨false, 1, []⟩) := by
  decide

/-- C2 amended: the commit is not atomic: insertion failures are reported
only through the ignored -1 sentinel, and once the response decodes to an
object whose statements are all strings, the oldest summarizeLength turns
are removed from the recent buffer unconditionally — in particular even
when every insertion fails because no embedding model is configured, in
which case the long-term store is left unchanged and the consolidated
turns are lost. -/
theorem summarize_removes_turns_despite_failed_adds
    (embed : String → List ℚ) (now : ℚ) (stm : ShortTermMemory)
    (ltm : LongTermMemory) (items : List JValue) (len : ℕ)
    (hm : ltm.hasModel = false)
    (hstr : ∀ v ∈ items, ∃ s, v = JValue.jstr s)
    (hlen : len ≤ stm.messages.length) :
    summarize_short_term_memory embed now stm ltm
        (.ok (.jobj [("summarize", .jarr items)])) len
      = (none, (stm.delete_back (some len)).2, ltm) := by
  unfold summarize_short_term_memory
  have hguard : ¬((stm.get_back (some len)).length < len) := by
    simp only [ShortTermMemory.get_back, List.length_map, List.length_take, effN]
    split
    · omega
    · omega
  rw [if_neg hguard]
  show (match addLoop embed now ltm items with
    | (ltm2, some e) => (some e, stm, ltm2)
    | (ltm2, none) => (none, (stm.delete_back (some len)).2, ltm2))
    = (none, (stm.delete_back (some len)).2, ltm)
  rw [addLoop_noModel embed now items ltm hm hstr]

/-- C2 witness: the amended statement evaluated at the concrete scenario
of the counterexample. -/
theorem summarize_removes_turns_despite_failed_adds_witness :
    summarize_short_term_memory (fun _ => []) 0
        ⟨50, [⟨"a", "x", 0, "t"⟩]⟩ ⟨false, 1, []⟩
        (.ok (.jobj [("summarize", .jarr [.jstr "s"])])) 1
      = (none, (ShortTermMemory.delete_back ⟨50, [⟨"a", "x", 0, "t"⟩]⟩ (some 1)).2,
          ⟨false, 1, []⟩) :=
  summarize_removes_turns_despite_failed_adds (fun _ => []) 0
    ⟨50, [⟨"a", "x", 0, "t"⟩]⟩ ⟨false, 1, []⟩ [.jstr "s"] 1 rfl
    (by intro v hv
        simp only [List.mem_singleton] at hv
        exact ⟨"s", hv⟩)
    (by decide)

/-- C10: on a non-empty buffer an argument of 0 is falsy in the idiom
n = n or len(messages), so get_recent(0), get_back(0) and delete_back(0)
behave exactly like the omitted argument: get_recent(0) returns all
stored turns (not the empty list) and delete_back(0) removes and returns
all stored turns (not none). -/
theorem zero_arg_means_all (stm : ShortTermMemory) (h : stm.messages ≠ []) :
    stm.get_recent (some 0) = stm.get_recent none
      ∧ stm.get_recent (some 0) = stm.messages.map dict_to_str
      ∧ stm.get_recent (some 0) ≠ []
      ∧ stm.get_back (some 0) = stm.get_back none
      ∧ stm.get_back (some 0) = stm.messages.map dict_to_str
      ∧ stm.delete_back (some 0) = stm.delete_back none
      ∧ (stm.delete_back (some 0)).1 = stm.messages.map dict_to_str
      ∧ (stm.delete_back (some 0)).2.messages = [] := by
  have hlen : stm.messages.length ≠ 0 := by
    simpa [List.length_eq_zero] using h
  refine ⟨rfl, ?_, ?_, rfl, ?_, rfl, ?_, ?_⟩
  · simp [ShortTermMemory.get_recent, effN, pyLastSlice, hlen]
  · simp [ShortTermMemory.get_recent, effN, pyLastSlice, hlen, h]
  · simp [ShortTermMemory.get_back, effN]
  · simp [ShortTermMemory.delete_back, effN]
  · simp [ShortTermMemory.delete_back, effN]

/-- C10 witness: the zero-argument behaviour evaluated on a concrete
one-turn buffer. -/
theorem zero_arg_means_all_witness :
    (ShortTermMemory.get_recent ⟨50, [⟨"a", "x", 0, "t"⟩]⟩ (some 0)
        = ShortTermMemory.get_recent ⟨50, [⟨"a", "x", 0, "t"⟩]⟩ none)
      ∧ ShortTermMemory.get_recent ⟨50, [⟨"a", "x", 0, "t"⟩]⟩ (some 0) = ["a(t): x"]
      ∧ (ShortTermMemory.delete_back ⟨50, [⟨"a", "x", 0, "t"⟩]⟩ (some 0)).2.messages = [] := by
  have h := zero_arg_means_all ⟨50, [⟨"a", "x", 0, "t"⟩]⟩ (by decide)
  exact ⟨h.1, by rw [h.2.1]; decide, h.2.2.2.2.2.2.2⟩

theorem add_le_max (stm : ShortTermMemory) (t : Turn) :
    (stm.add t).messages.length ≤ stm.max_size := by
  simp only [ShortTermMemory.add, List.length_drop, List.length_append,
    List.length_cons]
  omega

theorem foldl_add_max_size (ts : List Turn) :
    ∀ stm : ShortTermMemory,
      (ts.foldl ShortTermMemory.add stm).max_size = stm.max_size := by
  induction ts with
  | nil => intro stm; rfl
  | cons t ts ih => intro stm; rw [List.foldl_cons, ih]; rfl

theorem foldl_add_messages (ts : List Turn) :
    ∀ stm : ShortTermMemory, stm.messages.length ≤ stm.max_size →
      (ts.foldl ShortTermMemory.add stm).messages
        = (stm.messages ++ ts).drop
            (stm.messages.length + ts.length - stm.max_size) := by
  induction ts with
  | nil =>
    intro stm hle
    simp [Nat.sub_eq_zero_of_le hle]
  | cons t ts ih =>
    intro stm hle
    rw [List.foldl_cons, ih (stm.add t) (add_le_max stm t)]
    have h1 : (stm.add t).messages
        = (stm.messages ++ [t]).drop (stm.messages.length + 1 - stm.max_size) := by
      simp [ShortTermMemory.add]
    have h2 : (stm.add t).max_size = stm.max_size := rfl
    have h3 : (stm.add t).messages.length
        = stm.messages.length + 1 - (stm.messages.length + 1 - stm.max_size) := by
      rw [h1]
      simp
    rw [h2, h3, h1]
    rw [← List.drop_append_of_le_length (by simp)]
    rw [List.drop_drop]
    rw [show (stm.messages ++ [t]) ++ ts = stm.messages ++ t :: ts by simp]
    congr 1
    simp only [List.length_cons]
    omega

/-- C5: starting from any buffer with capacity N (holding at most N
turns, the deque invariant), after inserting N+k turns (k positive) the
buffer holds exactly the last N inserted turns in order, its length is N,
and get_recent(N) renders exactly those turns; moreover a single add
never leaves more than max_size turns, whatever the prior state, so the
length never exceeds capacity and overflow silently drops the oldest
turns. -/
theorem buffer_capacity (N k : ℕ) (init ts : List Turn) (hk : 0 < k)
    (hinit : init.length ≤ N) (hts : ts.length = N + k) :
    ((ts.foldl ShortTermMemory.add ⟨N, init⟩).messages = ts.drop k
      ∧ (ts.foldl ShortTermMemory.add ⟨N, init⟩).messages.length = N
      ∧ (ts.foldl ShortTermMemory.add ⟨N, init⟩).get_recent (some N)
          = (ts.drop k).map dict_to_str)
    ∧ ∀ (stm : ShortTermMemory) (t : Turn),
        (stm.add t).messages.length ≤ stm.max_size := by
  have hmsg : (ts.foldl ShortTermMemory.add ⟨N, init⟩).messages = ts.drop k := by
    rw [foldl_add_messages ts ⟨N, init⟩ hinit]
    show (init ++ ts).drop (init.length + ts.length - N) = ts.drop k
    rw [show init.length + ts.length - N = init.length + k by omega]
    exact List.drop_append k
  have hlen : (ts.drop k).length = N := by
    rw [List.length_drop, hts]
    omega
  refine ⟨⟨hmsg, by rw [hmsg, hlen], ?_⟩, add_le_max⟩
  unfold ShortTermMemory.get_recent
  rw [hmsg, hlen]
  have heff : effN (some N) N = N := by
    simp [effN]
  rw [heff]
  rcases Nat.eq_zero_or_pos N with hN | hN
  · simp [pyLastSlice, hN]
  · have hNne : N ≠ 0 := by omega
    simp [pyLastSlice, hNne, List.length_drop, hts]

/-- C5 witness: capacity 2, three insertions into an initially empty
buffer: the buffer keeps the last two turns in order and get_recent(2)
renders them. -/
theorem buffer_capacity_witness :
    (([⟨"a", "1", 0, "t"⟩, ⟨"b", "2", 0, "t"⟩, ⟨"c", "3", 0, "t"⟩] :
        List Turn).foldl ShortTermMemory.add ⟨2, []⟩).messages
        = [⟨"b", "2", 0, "t"⟩, ⟨"c", "3", 0, "t"⟩]
      ∧ (([⟨"a", "1", 0, "t"⟩, ⟨"b", "2", 0, "t"⟩, ⟨"c", "3", 0, "t"⟩] :
        List Turn).foldl ShortTermMemory.add ⟨2, []⟩).messages.length = 2
      ∧ (([⟨"a", "1", 0, "t"⟩, ⟨"b", "2", 0, "t"⟩, ⟨"c", "3", 0, "t"⟩] :
        List Turn).foldl ShortTermMemory.add ⟨2, []⟩).get_recent (some 2)
        = ["b(t): 2", "c(t): 3"] := by
  have h := buffer_capacity 2 1 []
    [⟨"a", "1", 0, "t"⟩, ⟨"b", "2", 0, "t"⟩, ⟨"c", "3", 0, "t"⟩]
    (by decide) (by decide) (by decide)
  exact ⟨h.1.1, h.1.2.1, by rw [h.1.2.2]; decide⟩

/-- C8: whenever the buffer holds at least recentTopK turns and
recentTopK is at least 1, get_memories assembles the header line, then
the recentTopK - 1 most recent turns with the single newest turn
withheld (oldest to newest, one per line), then the trailing current-turn
marker. -/
theorem get_memories_spec (stm : ShortTermMemory) (k : ℕ)
    (h1 : 1 ≤ k) (h2 : k ≤ stm.messages.length) :
    get_memories stm k
      = "[聊天历史(你的回复记录为bot)]\n"
        ++ (((stm.messages.drop (stm.messages.length - k)).take (k - 1)).map
              dict_to_str).foldl (fun acc m => acc ++ m ++ "\n") ""
        ++ "[当前对话]\n" := by
  have hrec : stm.get_recent (some k)
      = (stm.messages.drop (stm.messages.length - k)).map dict_to_str := by
    unfold ShortTermMemory.get_recent
    rw [show effN (some k) stm.messages.length = k by
      simp only [effN]
      rw [if_neg (by omega)]]
    rw [show pyLastSlice stm.messages k
        = stm.messages.drop (stm.messages.length - k) by
      simp only [pyLastSlice]
      rw [if_neg (by omega)]]
  have hdl : (stm.messages.drop (stm.messages.length - k)).dropLast
      = (stm.messages.drop (stm.messages.length - k)).take (k - 1) := by
    rw [List.dropLast_eq_take, List.length_drop]
    congr 1
    omega
  unfold get_memories
  rw [hrec, ← List.map_dropLast, hdl]

/-- C8 witness: a three-turn buffer with recentTopK = 2: the block holds
exactly one rendered turn (the second most recent), the newest being
withheld. -/
theorem get_memories_spec_witness :
    get_memories ⟨50, [⟨"a", "1", 0, "t"⟩, ⟨"b", "2", 0, "t"⟩, ⟨"c", "3", 0, "t"⟩]⟩ 2
      = "[聊天历史(你的回复记录为bot)]\n"
        ++ (((([⟨"a", "1", 0, "t"⟩, ⟨"b", "2", 0, "t"⟩, ⟨"c", "3", 0, "t"⟩] :
              List Turn).drop 1).take 1).map dict_to_str).foldl
            (fun acc m => acc ++ m ++ "\n") ""
        ++ "[当前对话]\n" :=
  get_memories_spec ⟨50, [⟨"a", "1", 0, "t"⟩, ⟨"b", "2", 0, "t"⟩, ⟨"c", "3", 0, "t"⟩]⟩ 2
    (by decide) (by decide)

theorem insertDesc_perm (x : MemoryEntry × ℚ) (l : List (MemoryEntry × ℚ)) :
    List.Perm (insertDesc x l) (x :: l) := by
  induction l with
  | nil => exact List.Perm.refl _
  | cons y ys ih =>
    unfold insertDesc
    by_cases h : y.2 < x.2
    · rw [if_pos h]
    · rw [if_neg h]
      exact (ih.cons y).trans (List.Perm.swap x y ys)

theorem mem_insertDesc {z x : MemoryEntry × ℚ} {l : List (MemoryEntry × ℚ)}
    (h : z ∈ insertDesc x l) : z = x ∨ z ∈ l := by
  have h2 := (insertDesc_perm x l).mem_iff.mp h
  simpa using h2

theorem sortDesc_perm (l : List (MemoryEntry × ℚ)) : List.Perm (sortDesc l) l := by
  suffices h : ∀ acc, List.Perm (l.foldl (fun a x => insertDesc x a) acc) (acc ++ l) by
    simpa using h []
  induction l with
  | nil => intro acc; simp
  | cons x xs ih =>
    intro acc
    rw [List.foldl_cons]
    refine (ih (insertDesc x acc)).trans ?_
    refine (((insertDesc_perm x acc).append_right xs).trans ?_)
    exact List.perm_middle.symm

theorem insertDesc_pairwise (x : MemoryEntry × ℚ) (acc : List (MemoryEntry × ℚ))
    (hpw : acc.Pairwise scoredLex) (hid : ∀ y ∈ acc, y.1.id < x.1.id) :
    (insertDesc x acc).Pairwise scoredLex := by
  induction acc with
  | nil => exact List.pairwise_singleton _ _
  | cons y ys ih =>
    rw [List.pairwise_cons] at hpw
    obtain ⟨hy, hys⟩ := hpw
    unfold insertDesc
    by_cases h : y.2 < x.2
    · rw [if_pos h]
      refine List.Pairwise.cons ?_ (List.Pairwise.cons hy hys)
      intro z hz
      rcases List.mem_cons.mp hz with rfl | hz2
      · exact Or.inl h
      · rcases hy z hz2 with h2 | ⟨h2, _⟩
        · exact Or.inl (h2.trans h)
        · exact Or.inl (by rw [← h2]; exact h)
    · rw [if_neg h]
      refine List.Pairwise.cons ?_
        (ih hys (fun w hw => hid w (List.mem_cons_of_mem y hw)))
      intro z hz
      rcases mem_insertDesc hz with rfl | hz2
      · rcases lt_or_eq_of_le (le_of_not_lt h) with hlt | heq
        · exact Or.inl hlt
        · exact Or.inr ⟨heq.symm, hid y (List.mem_cons_self y ys)⟩
      · exact hy z hz2

theorem sortDesc_pairwise :
    ∀ (l acc : List (MemoryEntry × ℚ)),
      acc.Pairwise scoredLex →
      (∀ y ∈ acc, ∀ x ∈ l, y.1.id < x.1.id) →
      l.Pairwise (fun a b => a.1.id < b.1.id) →
      (l.foldl (fun a x => insertDesc x a) acc).Pairwise scoredLex := by
  intro l
  induction l with
  | nil => intro acc hacc _ _; exact hacc
  | cons x xs ih =>
    intro acc hacc hcross hl
    rw [List.pairwise_cons] at hl
    obtain ⟨hx, hxs⟩ := hl
    rw [List.foldl_cons]
    apply ih
    · exact insertDesc_pairwise x acc hacc
        (fun y hy => hcross y hy x (List.mem_cons_self x xs))
    · intro y hy z hz
      rcases mem_insertDesc hy with rfl | hy2
      · exact hx z hz
      · exact hcross y hy2 z (List.mem_cons_of_mem x hz)
    · exact hxs

/-- C6 counterexample: on a one-entry store, query renders the single
returned entry as the string with no space after the closing colon, not
in the claimed format with a space after it. -/
theorem query_format_no_space :
    (LongTermMemory.query (fun _ _ => 1) (fun _ => 1)
        ⟨true, 2, [⟨1, "x", [], 0, 1, 0, 0⟩]⟩ [] 1 0).1
      = ["(time: 0):x"]
    ∧ (LongTermMemory.query (fun _ _ => 1) (fun _ => 1)
        ⟨true, 2, [⟨1, "x", [], 0, 1, 0, 0⟩]⟩ [] 1 0).1
      ≠ ["(time: 0): x"] := by
  decide

/-- C6 amended: whenever a model is configured and row ids are strictly
increasing in fetch (insertion) order, the first component of query is
obtained from some reordering of the scored entries that is sorted by
strictly descending score with ties broken by lower id first, truncated
to the top_k first elements, each rendered as (time: createdAt):content
with no space before the content. -/
theorem query_sorted_topk (simFn : List ℚ → List ℚ → ℚ) (powHalf : ℚ → ℚ)
    (ltm : LongTermMemory) (qv : List ℚ) (k : ℕ) (now : ℚ)
    (hm : ltm.hasModel = true)
    (hids : ltm.entries.Pairwise (fun a b => a.id < b.id)) :
    ∃ l : List (MemoryEntry × ℚ),
      l.Perm (ltm.entries.map (fun e => (e, scoreOf simFn powHalf now qv e)))
      ∧ l.Pairwise scoredLex
      ∧ (LongTermMemory.query simFn powHalf ltm qv k now).1
          = (l.take k).map (fun p => LongTermMemory.entry_to_str p.1) := by
  by_cases he : ltm.entries.isEmpty
  · have he2 : ltm.entries = [] := by
      rwa [List.isEmpty_iff] at he
    refine ⟨[], by simp [he2], List.Pairwise.nil, ?_⟩
    simp [LongTermMemory.query, hm, he2]
  · refine ⟨sortDesc (ltm.entries.map fun e => (e, scoreOf simFn powHalf now qv e)),
      sortDesc_perm _, ?_, ?_⟩
    · apply sortDesc_pairwise _ [] List.Pairwise.nil (by intro y hy; cases hy)
      rw [List.pairwise_map]
      exact hids
    · unfold LongTermMemory.query
      rw [hm]
      rw [if_neg (by simp)]
      rw [if_neg he]

/-- C6 witness: the amended statement at a concrete two-entry store with
constant similarity and decay, so both scores tie and the lower id is
returned first. -/
theorem query_sorted_topk_witness :
    ∃ l : List (MemoryEntry × ℚ),
      l.Perm (([⟨1, "a", [], 0, 1, 0, 0⟩, ⟨2, "b", [], 0, 1, 0, 0⟩] :
          List MemoryEntry).map
            (fun e => (e, scoreOf (fun _ _ => 1) (fun _ => 1) 0 [] e)))
      ∧ l.Pairwise scoredLex
      ∧ (LongTermMemory.query (fun _ _ => 1) (fun _ => 1)
          ⟨true, 3, [⟨1, "a", [], 0, 1, 0, 0⟩, ⟨2, "b", [], 0, 1, 0, 0⟩]⟩ [] 2 0).1
        = (l.take 2).map (fun p => LongTermMemory.entry_to_str p.1) :=
  query_sorted_topk (fun _ _ => 1) (fun _ => 1)
    ⟨true, 3, [⟨1, "a", [], 0, 1, 0, 0⟩, ⟨2, "b", [], 0, 1, 0, 0⟩]⟩ [] 2 0
    rfl (by decide)

theorem count_bool_length (s : List Bool) :
    s.count true + s.count false = s.length := by
  induction s with
  | nil => rfl
  | cons b t ih => cases b <;> simp [List.count_cons] <;> omega

/-- C9 counterexample: the complete interleaving in which both threads
run their membership test before either inserts: each test finds the
registry empty, so each thread constructs its own instance — two
ShortTermMemory constructions for the same session id, refuting the
single-creation claim (the source takes no lock around the
check-then-insert in get_short_term_memory). -/
theorem race_two_constructions :
    completeSched [true, false, true, false]
      ∧ (runSched [true, false, true, false] raceInit).2.2.constructed = 2 := by
  decide

/-- C9 amended: lookup-or-create is not mutually exclusive: a complete
interleaving of two simultaneous first-time calls can construct one or
two instances (both bounds are reached), and afterwards the registry
holds exactly one instance, the most recently constructed one — the
later insert silently overwrites the earlier, so two distinct instances
can exist even though only one remains registered. -/
theorem race_single_binding (s : List Bool) (hs : completeSched s) :
    (runSched s raceInit).2.2.stored
        = some ((runSched s raceInit).2.2.constructed - 1)
      ∧ 1 ≤ (runSched s raceInit).2.2.constructed
      ∧ (runSched s raceInit).2.2.constructed ≤ 2 := by
  have hlen : s.length = 4 := by
    have h := count_bool_length s
    obtain ⟨h1, h2⟩ := hs
    omega
  rcases s with _ | ⟨a, s1⟩
  · simp at hlen
  rcases s1 with _ | ⟨b, s2⟩
  · simp at hlen
  rcases s2 with _ | ⟨c, s3⟩
  · simp at hlen
  rcases s3 with _ | ⟨d, s4⟩
  · simp at hlen
  have hnil : s4 = [] := by
    simp only [List.length_cons] at hlen
    rw [← List.length_eq_zero]
    omega
  subst hnil
  revert hs
  cases a <;> cases b <;> cases c <;> cases d <;> decide

/-- C9 witness: the amended statement at the test-test-insert-insert
interleaving. -/
theorem race_single_binding_witness :
    (runSched [true, false, true, false] raceInit).2.2.stored
        = some ((runSched [true, false, true, false] raceInit).2.2.constructed - 1)
      ∧ 1 ≤ (runSched [true, false, true, false] raceInit).2.2.constructed
      ∧ (runSched [true, false, true, false] raceInit).2.2.constructed ≤ 2 :=
  race_single_binding [true, false, true, false] (by decide)
